import Mathlib

/-!
# Verification of the Scrim_Neo4j ingestion-and-linking engine

Shallow embedding of the core of `src/main.go` (the second, topic-aware
version of the program, lines 441-986): the cosine-similarity engine, the
topic-normalization post-processing of `extractTopics`, and the
per-message transactional pipeline `addMessageAndCreateEdges`.

Modelling conventions:
* `float64` embedding values are modelled as exact rationals (`ℚ`) — every
  IEEE-754 double is a rational — and the similarity result as a real
  number (`ℝ`), i.e. the arithmetic is exact rather than rounded.
* Go strings are modelled as `List Char` (`String.data` in Lean).
* The Neo4j write transaction is modelled as a function from a `Graph`
  state to `Except String TxResult`: a `.error` result is a rollback
  (`WriteTransaction` discards all writes of the closure on error), an
  `.ok` result carries the committed graph plus the ordered trace of
  attempted database operations.
* `tx.Run` failures are injected by an oracle `fail : DbOp → Bool`
  deciding which primitive writes/queries fail.
-/

namespace ScrimNeo4j

/-! ## Similarity engine (`cosineSimilarity`, main.go lines 884-901) -/

/-- The accumulator loop of `cosineSimilarity`: `for i := 0; i < len(a); i++`
accumulates `a[i]*b[i]`.  `dotProduct a b` is Go's `dotProduct`,
`dotProduct a a` is Go's `normA` (the squared Euclidean norm) and
`dotProduct b b` is Go's `normB`. -/
def dotProduct : List ℚ → List ℚ → ℚ
  | x :: xs, y :: ys => x * y + dotProduct xs ys
  | _, _ => 0

/-- `cosineSimilarity` (main.go 884-901): returns `0.0` when
`len(a) != len(b) || len(a) == 0`, returns `0.0` when `normA == 0 || normB == 0`,
otherwise `dotProduct / (math.Sqrt(normA) * math.Sqrt(normB))`. -/
noncomputable def cosineSimilarity (a b : List ℚ) : ℝ :=
  if a.length ≠ b.length ∨ a.length = 0 then 0
  else
    let dp : ℚ := dotProduct a b
    let normA : ℚ := dotProduct a a
    let normB : ℚ := dotProduct b b
    if normA = 0 ∨ normB = 0 then 0
    else (dp : ℝ) / (Real.sqrt normA * Real.sqrt normB)

/-- Decidable form of the source's edge test `similarity > 0.5`
(main.go line 778).  The real-valued comparison
`0.5 < cosineSimilarity a b` is not decidable as written; this definition
replaces it by the equivalent rational inequality
`0 < dp ∧ normA * normB < 4 * dp ^ 2` on the non-degenerate branch.
`decideGtHalf_iff_gt` proves the equivalence, so the pipeline below stays
executable while its theorems are stated against `cosineSimilarity`. -/
def decideGtHalf (a b : List ℚ) : Bool :=
  if a.length ≠ b.length ∨ a.length = 0 then false
  else
    let dp : ℚ := dotProduct a b
    let normA : ℚ := dotProduct a a
    let normB : ℚ := dotProduct b b
    if normA = 0 ∨ normB = 0 then false
    else decide (0 < dp ∧ normA * normB < 4 * dp ^ 2)

lemma dotProduct_self_nonneg (a : List ℚ) : 0 ≤ dotProduct a a := by
  induction a with
  | nil => simp [dotProduct]
  | cons x xs ih =>
      have hx : 0 ≤ x * x := mul_self_nonneg x
      simpa [dotProduct] using add_nonneg hx ih

lemma dotProduct_self_pos {a : List ℚ} (h : dotProduct a a ≠ 0) :
    0 < dotProduct a a :=
  lt_of_le_of_ne (dotProduct_self_nonneg a) (Ne.symm h)

/-- The decidable rational test agrees with the real-valued strict
threshold comparison of the source. -/
lemma decideGtHalf_iff_gt (a b : List ℚ) :
    decideGtHalf a b = true ↔ (1 / 2 : ℝ) < cosineSimilarity a b := by
  unfold decideGtHalf cosineSimilarity
  by_cases hlen : a.length ≠ b.length ∨ a.length = 0
  · rw [if_pos hlen, if_pos hlen]
    norm_num
  · rw [if_neg hlen, if_neg hlen]
    simp only []
    by_cases hn : dotProduct a a = 0 ∨ dotProduct b b = 0
    · rw [if_pos hn, if_pos hn]
      norm_num
    · rw [if_neg hn, if_neg hn]
      push_neg at hn
      have hA : 0 < dotProduct a a := dotProduct_self_pos hn.1
      have hB : 0 < dotProduct b b := dotProduct_self_pos hn.2
      have hAr : (0 : ℝ) < (dotProduct a a : ℚ) := by exact_mod_cast hA
      have hBr : (0 : ℝ) < (dotProduct b b : ℚ) := by exact_mod_cast hB
      have hx : (0 : ℝ) < Real.sqrt (dotProduct a a) * Real.sqrt (dotProduct b b) :=
        mul_pos (Real.sqrt_pos.mpr hAr) (Real.sqrt_pos.mpr hBr)
      rw [decide_eq_true_iff]
      rw [lt_div_iff₀ hx]
      have hmul : Real.sqrt (dotProduct a a) * Real.sqrt (dotProduct b b)
          = Real.sqrt ((dotProduct a a : ℝ) * (dotProduct b b : ℝ)) :=
        (Real.sqrt_mul (le_of_lt hAr) _).symm
      constructor
      · rintro ⟨hdp, hlt⟩
        have hdpr : (0 : ℝ) < (dotProduct a b : ℚ) := by exact_mod_cast hdp
        have h2dp : (0 : ℝ) < 2 * (dotProduct a b : ℚ) := by linarith
        have hsq : (dotProduct a a : ℝ) * (dotProduct b b : ℝ)
            < (2 * (dotProduct a b : ℚ)) ^ 2 := by
          have : ((dotProduct a a * dotProduct b b : ℚ) : ℝ)
              < ((4 * dotProduct a b ^ 2 : ℚ) : ℝ) := by exact_mod_cast hlt
          push_cast at this
          nlinarith [this]
        have := (Real.sqrt_lt' h2dp).mpr hsq
        rw [hmul]
        linarith
      · intro hlt
        rw [hmul] at hlt
        have hs_nonneg : (0 : ℝ) ≤ Real.sqrt ((dotProduct a a : ℝ) * (dotProduct b b : ℝ)) :=
          Real.sqrt_nonneg _
        have hs_pos : (0 : ℝ) < Real.sqrt ((dotProduct a a : ℝ) * (dotProduct b b : ℝ)) := by
          rw [← hmul]; exact hx
        have h2dp : (0 : ℝ) < 2 * (dotProduct a b : ℚ) := by linarith
        have hdp : (0 : ℚ) < dotProduct a b := by
          have : (0 : ℝ) < (dotProduct a b : ℚ) := by linarith
          exact_mod_cast this
        have hsq : (dotProduct a a : ℝ) * (dotProduct b b : ℝ)
            < (2 * (dotProduct a b : ℚ)) ^ 2 := by
          have h1 : Real.sqrt ((dotProduct a a : ℝ) * (dotProduct b b : ℝ))
              < 2 * (dotProduct a b : ℚ) := by linarith
          exact (Real.sqrt_lt' h2dp).mp h1
        refine ⟨hdp, ?_⟩
        have : ((dotProduct a a * dotProduct b b : ℚ) : ℝ)
            < ((4 * dotProduct a b ^ 2 : ℚ) : ℝ) := by
          push_cast
          nlinarith [hsq]
        exact_mod_cast this

/-- Against an empty left vector the threshold test is never passed. -/
lemma decideGtHalf_nil (b : List ℚ) : decideGtHalf [] b = false := by
  unfold decideGtHalf
  by_cases hb : b = []
  · subst hb; simp
  · simp [List.length_eq_zero]

/-! ## Topic normalization (post-processing of `extractTopics`, main.go 568-600)

The LLM call itself is an external collaborator; the normalization of its
raw text output is the code under verification. -/

/-- Case lowering restricted to the character repertoire of the fixed
vocabulary and the sentinel strings (ASCII letters plus the Vietnamese
letters occurring in them).  Models Go's `strings.ToLower` /
`strings.EqualFold` simple case folding on exactly the characters the
program compares against; other characters are left unchanged. -/
def vietLower (c : Char) : Char :=
  if 'A' ≤ c ∧ c ≤ 'Z' then Char.ofNat (c.toNat + 32)
  else if c = 'Á' then 'á'
  else if c = 'À' then 'à'
  else if c = 'Ầ' then 'ầ'
  else if c = 'Ú' then 'ú'
  else if c = 'Ũ' then 'ũ'
  else if c = 'Ế' then 'ế'
  else if c = 'Ã' then 'ã'
  else if c = 'Ả' then 'ả'
  else if c = 'Ô' then 'ô'
  else if c = 'Ó' then 'ó'
  else c

/-- `strings.ToLower` on the modelled repertoire. -/
def toLowerStr (s : List Char) : List Char := s.map vietLower

/-- `strings.EqualFold` on the modelled repertoire: equality after folding. -/
def equalFold (a b : List Char) : Bool := a.map vietLower == b.map vietLower

/-- The whitespace class of `strings.TrimSpace` (restricted to the ASCII
whitespace characters; the program's inputs contain no exotic spaces). -/
def isSpaceChar (c : Char) : Bool :=
  c = ' ' || c = '\t' || c = '\n' || c = '\r'

/-- The cutset of `strings.Trim(topicsText, Chars 34 and 39)`: double and
single quote. -/
def isQuoteChar (c : Char) : Bool :=
  c = Char.ofNat 34 || c = Char.ofNat 39

/-- Trim characters satisfying `p` from both ends (Go's `strings.Trim` /
`strings.TrimSpace` shape). -/
def trimBy (p : Char → Bool) (s : List Char) : List Char :=
  ((s.dropWhile p).reverse.dropWhile p).reverse

/-- `strings.TrimSpace`. -/
def trimSpace (s : List Char) : List Char := trimBy isSpaceChar s

/-- `strings.Trim(s, quote cutset)`. -/
def trimQuotes (s : List Char) : List Char := trimBy isQuoteChar s

/-- `strings.Split(s, comma)`: splits into the (possibly empty) segments
between commas. -/
def splitComma : List Char → List (List Char)
  | [] => [[]]
  | c :: rest =>
      if c = ',' then [] :: splitComma rest
      else
        match splitComma rest with
        | [] => [[c]]
        | t :: ts => (c :: t) :: ts

/-- The fixed vocabulary `validTags` of main.go line 584. -/
def validTags : List (List Char) :=
  ["Áo", "Quần", "Giày", "Túi", "Mũ", "Khuyến mãi", "Giảm giá", "Freeship", "Combo"].map
    String.data

/-- The Vietnamese "no tags" sentinel. -/
def noTagVN : List Char := "không có tag".data

/-- The English "no tags" sentinel. -/
def noTagEN : List Char := "no tag".data

/-- `pat` is a prefix of `s`. -/
def beginsWith : List Char → List Char → Bool
  | _, [] => true
  | [], _ :: _ => false
  | c :: s, p :: ps => c == p && beginsWith s ps

/-- `strings.Contains(s, pat)`: `pat` occurs as a contiguous substring of
`s`. -/
def containsSub (s pat : List Char) : Bool :=
  match s with
  | [] => beginsWith [] pat
  | c :: rest => beginsWith (c :: rest) pat || containsSub rest pat

/-- The body of the per-candidate loop of `extractTopics` (main.go 586-597):
trim the candidate, guard it against the empty string and the literal
Vietnamese sentinel, and return the first vocabulary entry it matches
case-insensitively (the inner loop with `break`), if any. -/
def matchCandidate (t : List Char) : Option (List Char) :=
  if trimSpace t != [] && trimSpace t != noTagVN then
    validTags.find? (fun v => equalFold (trimSpace t) v)
  else none

/-- The sentinel / empty-output check of `extractTopics` (main.go 573-577):
the lowercased text contains either sentinel, or trims to the empty
string. -/
def sentinelOrEmpty (topicsText : List Char) : Bool :=
  containsSub (toLowerStr topicsText) noTagVN ||
  containsSub (toLowerStr topicsText) noTagEN ||
  trimSpace topicsText == []

/-- The post-processing of `extractTopics` (main.go 568-600): trim space
and quotes, return `[]` on the sentinel check, otherwise split on commas
and fold the candidate loop, appending the canonical vocabulary spelling
of each matching candidate. -/
def cleanTopics (raw : List Char) : List (List Char) :=
  let topicsText := trimQuotes (trimSpace raw)
  if sentinelOrEmpty topicsText then []
  else
    (splitComma topicsText).foldl
      (fun acc t =>
        match matchCandidate t with
        | some v => acc ++ [v]
        | none => acc) []

/-- `cleanTopics` on Lean `String`s. -/
def extractTopicsClean (s : String) : List String :=
  (cleanTopics s.data).map String.mk

/-! ## Graph store state

Node and relationship records mirroring the Cypher property payloads of
`addMessageAndCreateEdges` and `createUser` (main.go 635-820). -/

/-- A `User` node (the properties set by `createUser`; the preference
strings are irrelevant to the claims and omitted). -/
structure UserNode where
  userId : String
  name : String
  createdAt : Int
  lastActive : Int
deriving DecidableEq, Repr

/-- A `Message` node: the properties of the `CREATE (m:Message {...})`
query (main.go 641-651), i.e. the Go `Message` struct plus the `userId`
property taken from the `userID` argument. -/
structure MessageNode where
  messageId : String
  userId : String
  timestamp : Int
  sender : String
  content : String
  embedding : List ℚ
  topics : List String
deriving DecidableEq, Repr

/-- A `Topic` node: the properties of `MERGE (t:Topic {name}) ON CREATE
SET t.topicId, t.createdAt` (main.go 712-716). -/
structure TopicNode where
  name : String
  topicId : String
  createdAt : Int
deriving DecidableEq, Repr

/-- A `CONTEXTUAL_LINK` relationship instance.  The source also stores the
`similarity` float as an edge property; that property only matters to the
merge-idempotence analysis, which is carried out on the dedicated
`CtxLinkRecord` model below, so it is omitted from the pipeline state
(its value, `cosineSimilarity` of the two embeddings, is a real number
and would make the state non-executable). -/
structure CtxEdge where
  msgId1 : String
  msgId2 : String
  timestamp : Int
deriving DecidableEq, Repr

/-- The graph database state: typed nodes plus the three relationship
sets.  `owns` holds `(userId, messageId)` pairs, `belongsTo` holds
`(messageId, topicName)` pairs. -/
structure Graph where
  users : List UserNode
  messages : List MessageNode
  owns : List (String × String)
  topics : List TopicNode
  belongsTo : List (String × String)
  ctxEdges : List CtxEdge
deriving DecidableEq, Repr

/-- The primitive database operations attempted by the transaction of
`addMessageAndCreateEdges`, one constructor per `tx.Run` call site. -/
inductive DbOp where
  | createMessage
  | linkOwnership
  | updateLastActive
  | upsertTopic (name : String)
  | linkTopic (name : String)
  | fetchCandidates
  | createEdge (candidateId : String)
deriving DecidableEq, Repr

/-! ### The individual Cypher writes, as state transformers -/

/-- `MATCH (u:User {userId}) MATCH (m:Message {messageId}) CREATE
(u)-[:OWNS]->(m)` (main.go 668-674): appends an `OWNS` pair when both
endpoints match; a `MATCH` that finds nothing makes the write a no-op
(Cypher `MATCH` yields zero rows, not an error). -/
def linkOwnershipOp (g : Graph) (uid mid : String) : Graph :=
  if g.users.any (fun u => u.userId == uid) && g.messages.any (fun m => m.messageId == mid)
  then { g with owns := g.owns ++ [(uid, mid)] }
  else g

/-- `MATCH (u:User {userId}) SET u.lastActive = $lastActive`
(main.go 687-692): updates every matching user's `lastActive`. -/
def setLastActiveOp (g : Graph) (uid : String) (now : Int) : Graph :=
  { g with
    users := g.users.map (fun u => if u.userId == uid then { u with lastActive := now } else u) }

/-- `MERGE (t:Topic {name}) ON CREATE SET t.topicId, t.createdAt`
(main.go 712-721): creates the topic node only when no node with that
name exists; an existing node keeps its id (name is the dedup key). -/
def upsertTopicOp (g : Graph) (tname tid : String) (now : Int) : Graph :=
  if g.topics.any (fun t => t.name == tname) then g
  else { g with topics := g.topics ++ [⟨tname, tid, now⟩] }

/-- `MATCH (m:Message {messageId}) MATCH (t:Topic {name}) MERGE
(m)-[:BELONGS_TO]->(t)` (main.go 730-736): idempotent association,
no-op when either endpoint is missing. -/
def linkMessageTopicOp (g : Graph) (mid tname : String) : Graph :=
  if g.messages.any (fun m => m.messageId == mid) && g.topics.any (fun t => t.name == tname)
  then
    if (mid, tname) ∈ g.belongsTo then g
    else { g with belongsTo := g.belongsTo ++ [(mid, tname)] }
  else g

/-- `MERGE (m1)-[r:CONTEXTUAL_LINK {similarity, timestamp}]-(m2)`
(main.go 784-789) restricted to the pipeline's `CtxEdge` records: the
undirected pattern matches an existing edge between the two messages with
the same per-call `timestamp` property, otherwise a new edge record is
created. -/
def mergeCtxEdgeOp (g : Graph) (id1 id2 : String) (now : Int) : Graph :=
  if g.ctxEdges.any (fun e =>
      ((e.msgId1 == id1 && e.msgId2 == id2) || (e.msgId1 == id2 && e.msgId2 == id1)) &&
      e.timestamp == now)
  then g
  else { g with ctxEdges := g.ctxEdges ++ [⟨id1, id2, now⟩] }

/-- The candidate scan `MATCH (m2:Message {userId}) WHERE m2.messageId <>
$messageId` (main.go 750-755): every message of the same owner other than
the new message itself. -/
def similarityCandidates (msgs : List MessageNode) (uid mid : String) : List MessageNode :=
  msgs.filter (fun m => m.userId == uid && m.messageId != mid)

/-! ### The transaction of `addMessageAndCreateEdges` (main.go 635-820) -/

/-- One iteration of the topic loop (main.go 710-740), threading the graph
and the trace of attempted operations: the topic upsert is attempted; on
failure the loop `continue`s (the link is not attempted); otherwise the
link is attempted and its failure is logged and skipped. -/
def topicStep (fail : DbOp → Bool) (topicIdGen : String → String) (mid : String) (now : Int)
    (s : Graph × List DbOp) (tname : String) : Graph × List DbOp :=
  let tr := s.2 ++ [DbOp.upsertTopic tname]
  if fail (DbOp.upsertTopic tname) then (s.1, tr)
  else
    let g := upsertTopicOp s.1 tname (topicIdGen tname) now
    let tr := tr ++ [DbOp.linkTopic tname]
    if fail (DbOp.linkTopic tname) then (g, tr)
    else (linkMessageTopicOp g mid tname, tr)

/-- One iteration of the candidate loop (main.go 760-805): the edge write
is attempted exactly when `similarity > 0.5` (as `decideGtHalf`, see
`decideGtHalf_iff_gt`); a failing edge write is logged and skipped. -/
def edgeStep (fail : DbOp → Bool) (emb : List ℚ) (mid : String) (now : Int)
    (s : Graph × List DbOp) (cand : MessageNode) : Graph × List DbOp :=
  if decideGtHalf emb cand.embedding then
    let tr := s.2 ++ [DbOp.createEdge cand.messageId]
    if fail (DbOp.createEdge cand.messageId) then (s.1, tr)
    else (mergeCtxEdgeOp s.1 mid cand.messageId now, tr)
  else s

/-- The transaction outcome: the graph as left by the closure plus the
ordered trace of attempted operations. -/
structure TxResult where
  graph : Graph
  trace : List DbOp
deriving DecidableEq, Repr

/-- The tail of the transaction after the structural writes: the topic
loop, the candidate query (fatal on failure, main.go 757-759), and the
candidate loop. -/
def runTopicsAndEdges (fail : DbOp → Bool) (topicIdGen : String → String)
    (msg : MessageNode) (uid : String) (now : Int) (g : Graph) (tr : List DbOp) :
    Except String TxResult :=
  let s := msg.topics.foldl (topicStep fail topicIdGen msg.messageId now) (g, tr)
  let tr2 := s.2 ++ [DbOp.fetchCandidates]
  if fail DbOp.fetchCandidates then Except.error "failed to query existing messages"
  else
    let cands := similarityCandidates s.1.messages uid msg.messageId
    let s2 := cands.foldl (edgeStep fail msg.embedding msg.messageId now) (s.1, tr2)
    Except.ok ⟨s2.1, s2.2⟩

/-- `addMessageAndCreateEdges` (main.go 635-820): the whole unit of work.
The three structural writes (`CREATE (m:Message ...)`, the `OWNS` link,
and — for human senders only — the `lastActive` update) abort the closure
with an error on failure; `generateID()` for topic ids is modelled by the
`topicIdGen` oracle and `time.Now().Unix()` by `now`. -/
def addMessageAndCreateEdges (fail : DbOp → Bool) (topicIdGen : String → String)
    (msg : MessageNode) (uid : String) (now : Int) (g0 : Graph) : Except String TxResult :=
  if fail DbOp.createMessage then Except.error "failed to create message node"
  else
    let g1 := { g0 with messages := g0.messages ++ [msg] }
    if fail DbOp.linkOwnership then Except.error "failed to link message to user"
    else
      let g2 := linkOwnershipOp g1 uid msg.messageId
      if msg.sender == "human" then
        if fail DbOp.updateLastActive then Except.error "failed to update user last active"
        else
          runTopicsAndEdges fail topicIdGen msg uid now (setLastActiveOp g2 uid now)
            [DbOp.createMessage, DbOp.linkOwnership, DbOp.updateLastActive]
      else
        runTopicsAndEdges fail topicIdGen msg uid now g2
          [DbOp.createMessage, DbOp.linkOwnership]

/-- The state the store is left in once the session closes:
`session.WriteTransaction` commits the closure's writes on `.ok` and
rolls every one of them back on `.error`. -/
def commitState (g0 : Graph) (r : Except String TxResult) : Graph :=
  match r with
  | Except.ok res => res.graph
  | Except.error _ => g0

/-- The trace of operations attempted by a committed transaction (empty
for an aborted one, whose trace the model does not observe). -/
def txTrace (r : Except String TxResult) : List DbOp :=
  match r with
  | Except.ok res => res.trace
  | Except.error _ => []

/-! ## The `CONTEXTUAL_LINK` merge pattern in isolation (for claim C9)

`MERGE (m1)-[r:CONTEXTUAL_LINK {similarity: $similarity, timestamp:
$timestamp}]-(m2)` (main.go 784-789) keyed on the full property map.  Here
the `similarity` property value is carried exactly (a `float64` value is a
rational number), so that the matching semantics of the pattern can be
analysed including that property. -/

/-- One stored `CONTEXTUAL_LINK` relationship with its property payload. -/
structure CtxLinkRecord where
  endA : String
  endB : String
  similarity : ℚ
  timestamp : Int
deriving DecidableEq, Repr

/-- Whether an existing relationship matches the undirected merge pattern
for endpoints `id1`, `id2` with property values `sim` and `ts`: the
pattern `(m1)-[r:CONTEXTUAL_LINK {similarity, timestamp}]-(m2)` matches
in either direction but only with exactly these property values. -/
def ctxPatternMatches (e : CtxLinkRecord) (id1 id2 : String) (sim : ℚ) (ts : Int) : Bool :=
  ((e.endA == id1 && e.endB == id2) || (e.endA == id2 && e.endB == id1)) &&
  e.similarity == sim && e.timestamp == ts

/-- The `MERGE` of the edge query: reuse a relationship matching the whole
pattern, otherwise create a fresh one. -/
def mergeContextualLink (es : List CtxLinkRecord) (id1 id2 : String) (sim : ℚ) (ts : Int) :
    List CtxLinkRecord :=
  if es.any (fun e => ctxPatternMatches e id1 id2 sim ts) then es
  else es ++ [⟨id1, id2, sim, ts⟩]

/-- The relationships of `es` connecting the unordered pair `{id1, id2}`. -/
def edgesBetween (es : List CtxLinkRecord) (id1 id2 : String) : List CtxLinkRecord :=
  es.filter (fun e =>
    (e.endA == id1 && e.endB == id2) || (e.endA == id2 && e.endB == id1))

/-! ## Structural lemmas about the transaction -/

/-- The graph after the structural writes of the unit of work (steps
before the topic loop), for a non-failing run. -/
def structuralGraph (msg : MessageNode) (uid : String) (now : Int) (g0 : Graph) : Graph :=
  let g1 := { g0 with messages := g0.messages ++ [msg] }
  let g2 := linkOwnershipOp g1 uid msg.messageId
  if msg.sender == "human" then setLastActiveOp g2 uid now else g2

/-- The operations attempted by the structural phase of a non-failing
run. -/
def structuralTrace (msg : MessageNode) : List DbOp :=
  if msg.sender == "human" then
    [DbOp.createMessage, DbOp.linkOwnership, DbOp.updateLastActive]
  else [DbOp.createMessage, DbOp.linkOwnership]

/-- The operations attempted by the topic loop. -/
def topicOps (fail : DbOp → Bool) (names : List String) : List DbOp :=
  names.flatMap (fun n =>
    if fail (DbOp.upsertTopic n) then [DbOp.upsertTopic n]
    else [DbOp.upsertTopic n, DbOp.linkTopic n])

/-- The operations attempted by the candidate loop. -/
def edgeOps (emb : List ℚ) (cands : List MessageNode) : List DbOp :=
  cands.flatMap (fun c =>
    if decideGtHalf emb c.embedding then [DbOp.createEdge c.messageId] else [])

lemma linkOwnershipOp_messages (g : Graph) (uid mid : String) :
    (linkOwnershipOp g uid mid).messages = g.messages := by
  unfold linkOwnershipOp; split <;> rfl

lemma linkOwnershipOp_users (g : Graph) (uid mid : String) :
    (linkOwnershipOp g uid mid).users = g.users := by
  unfold linkOwnershipOp; split <;> rfl

lemma linkOwnershipOp_ctxEdges (g : Graph) (uid mid : String) :
    (linkOwnershipOp g uid mid).ctxEdges = g.ctxEdges := by
  unfold linkOwnershipOp; split <;> rfl

lemma upsertTopicOp_users (g : Graph) (tname tid : String) (now : Int) :
    (upsertTopicOp g tname tid now).users = g.users := by
  unfold upsertTopicOp; split <;> rfl

lemma upsertTopicOp_messages (g : Graph) (tname tid : String) (now : Int) :
    (upsertTopicOp g tname tid now).messages = g.messages := by
  unfold upsertTopicOp; split <;> rfl

lemma upsertTopicOp_ctxEdges (g : Graph) (tname tid : String) (now : Int) :
    (upsertTopicOp g tname tid now).ctxEdges = g.ctxEdges := by
  unfold upsertTopicOp; split <;> rfl

lemma upsertTopicOp_belongsTo (g : Graph) (tname tid : String) (now : Int) :
    (upsertTopicOp g tname tid now).belongsTo = g.belongsTo := by
  unfold upsertTopicOp; split <;> rfl

lemma linkMessageTopicOp_users (g : Graph) (mid tname : String) :
    (linkMessageTopicOp g mid tname).users = g.users := by
  unfold linkMessageTopicOp
  split
  · split <;> rfl
  · rfl

lemma linkMessageTopicOp_messages (g : Graph) (mid tname : String) :
    (linkMessageTopicOp g mid tname).messages = g.messages := by
  unfold linkMessageTopicOp
  split
  · split <;> rfl
  · rfl

lemma linkMessageTopicOp_ctxEdges (g : Graph) (mid tname : String) :
    (linkMessageTopicOp g mid tname).ctxEdges = g.ctxEdges := by
  unfold linkMessageTopicOp
  split
  · split <;> rfl
  · rfl

lemma topicStep_fst_fields (fail : DbOp → Bool) (gen : String → String) (mid : String)
    (now : Int) (s : Graph × List DbOp) (tname : String) :
    (topicStep fail gen mid now s tname).1.users = s.1.users ∧
    (topicStep fail gen mid now s tname).1.messages = s.1.messages ∧
    (topicStep fail gen mid now s tname).1.ctxEdges = s.1.ctxEdges := by
  unfold topicStep
  split_ifs <;>
    simp [upsertTopicOp_users, upsertTopicOp_messages, upsertTopicOp_ctxEdges,
      linkMessageTopicOp_users, linkMessageTopicOp_messages, linkMessageTopicOp_ctxEdges]

lemma topicFold_fst_fields (fail : DbOp → Bool) (gen : String → String) (mid : String)
    (now : Int) (names : List String) :
    ∀ s : Graph × List DbOp,
      (names.foldl (topicStep fail gen mid now) s).1.users = s.1.users ∧
      (names.foldl (topicStep fail gen mid now) s).1.messages = s.1.messages ∧
      (names.foldl (topicStep fail gen mid now) s).1.ctxEdges = s.1.ctxEdges := by
  induction names with
  | nil => intro s; exact ⟨rfl, rfl, rfl⟩
  | cons n ns ih =>
      intro s
      simp only [List.foldl_cons]
      obtain ⟨h1, h2, h3⟩ := ih (topicStep fail gen mid now s n)
      obtain ⟨g1, g2, g3⟩ := topicStep_fst_fields fail gen mid now s n
      exact ⟨h1.trans g1, h2.trans g2, h3.trans g3⟩

lemma topicStep_snd (fail : DbOp → Bool) (gen : String → String) (mid : String)
    (now : Int) (s : Graph × List DbOp) (tname : String) :
    (topicStep fail gen mid now s tname).2 =
      s.2 ++ (if fail (DbOp.upsertTopic tname) then [DbOp.upsertTopic tname]
              else [DbOp.upsertTopic tname, DbOp.linkTopic tname]) := by
  unfold topicStep
  split_ifs <;> simp

lemma topicFold_snd (fail : DbOp → Bool) (gen : String → String) (mid : String)
    (now : Int) (names : List String) :
    ∀ s : Graph × List DbOp,
      (names.foldl (topicStep fail gen mid now) s).2 = s.2 ++ topicOps fail names := by
  induction names with
  | nil => intro s; simp [topicOps]
  | cons n ns ih =>
      intro s
      simp only [List.foldl_cons]
      rw [ih (topicStep fail gen mid now s n), topicStep_snd]
      simp [topicOps, List.append_assoc]

lemma mem_topicOps_shape {fail : DbOp → Bool} {names : List String} {op : DbOp}
    (h : op ∈ topicOps fail names) :
    (∃ n, op = DbOp.upsertTopic n) ∨ (∃ n, op = DbOp.linkTopic n) := by
  unfold topicOps at h
  rw [List.mem_flatMap] at h
  obtain ⟨n, _, hmem⟩ := h
  by_cases hf : fail (DbOp.upsertTopic n)
  · rw [if_pos hf] at hmem
    simp at hmem
    exact Or.inl ⟨n, hmem⟩
  · rw [if_neg hf] at hmem
    simp at hmem
    rcases hmem with h | h
    · exact Or.inl ⟨n, h⟩
    · exact Or.inr ⟨n, h⟩

lemma edgeStep_fst_fields (fail : DbOp → Bool) (emb : List ℚ) (mid : String) (now : Int)
    (s : Graph × List DbOp) (cand : MessageNode) :
    (edgeStep fail emb mid now s cand).1.users = s.1.users ∧
    (edgeStep fail emb mid now s cand).1.messages = s.1.messages ∧
    (edgeStep fail emb mid now s cand).1.belongsTo = s.1.belongsTo := by
  unfold edgeStep mergeCtxEdgeOp
  split_ifs <;> simp

lemma edgeFold_fst_fields (fail : DbOp → Bool) (emb : List ℚ) (mid : String) (now : Int)
    (cands : List MessageNode) :
    ∀ s : Graph × List DbOp,
      (cands.foldl (edgeStep fail emb mid now) s).1.users = s.1.users ∧
      (cands.foldl (edgeStep fail emb mid now) s).1.messages = s.1.messages ∧
      (cands.foldl (edgeStep fail emb mid now) s).1.belongsTo = s.1.belongsTo := by
  induction cands with
  | nil => intro s; exact ⟨rfl, rfl, rfl⟩
  | cons c cs ih =>
      intro s
      simp only [List.foldl_cons]
      obtain ⟨h1, h2, h3⟩ := ih (edgeStep fail emb mid now s c)
      obtain ⟨g1, g2, g3⟩ := edgeStep_fst_fields fail emb mid now s c
      exact ⟨h1.trans g1, h2.trans g2, h3.trans g3⟩

lemma edgeStep_snd (fail : DbOp → Bool) (emb : List ℚ) (mid : String) (now : Int)
    (s : Graph × List DbOp) (cand : MessageNode) :
    (edgeStep fail emb mid now s cand).2 =
      s.2 ++ (if decideGtHalf emb cand.embedding then [DbOp.createEdge cand.messageId]
              else []) := by
  unfold edgeStep
  split_ifs <;> simp

lemma edgeFold_snd (fail : DbOp → Bool) (emb : List ℚ) (mid : String) (now : Int)
    (cands : List MessageNode) :
    ∀ s : Graph × List DbOp,
      (cands.foldl (edgeStep fail emb mid now) s).2 = s.2 ++ edgeOps emb cands := by
  induction cands with
  | nil => intro s; simp [edgeOps]
  | cons c cs ih =>
      intro s
      simp only [List.foldl_cons]
      rw [ih (edgeStep fail emb mid now s c), edgeStep_snd]
      simp [edgeOps, List.append_assoc]

lemma mem_edgeOps_iff (emb : List ℚ) (cands : List MessageNode) (cid : String) :
    DbOp.createEdge cid ∈ edgeOps emb cands ↔
      ∃ c ∈ cands, c.messageId = cid ∧ decideGtHalf emb c.embedding = true := by
  unfold edgeOps
  rw [List.mem_flatMap]
  constructor
  · rintro ⟨c, hc, hmem⟩
    by_cases hd : decideGtHalf emb c.embedding
    · rw [if_pos hd] at hmem
      simp at hmem
      exact ⟨c, hc, hmem.symm ▸ rfl, hd⟩
    · rw [if_neg hd] at hmem
      simp at hmem
  · rintro ⟨c, hc, hcid, hd⟩
    exact ⟨c, hc, by rw [if_pos hd]; simp [hcid]⟩

lemma mem_edgeOps_shape {emb : List ℚ} {cands : List MessageNode} {op : DbOp}
    (h : op ∈ edgeOps emb cands) : ∃ cid, op = DbOp.createEdge cid := by
  unfold edgeOps at h
  rw [List.mem_flatMap] at h
  obtain ⟨c, _, hmem⟩ := h
  by_cases hd : decideGtHalf emb c.embedding
  · rw [if_pos hd] at hmem
    simp at hmem
    exact ⟨c.messageId, hmem⟩
  · rw [if_neg hd] at hmem
    simp at hmem

/-- An all-structural-writes-succeed run reduces to the topic/edge tail
started from the structural graph and trace. -/
lemma addMessage_ok_eq (fail : DbOp → Bool) (gen : String → String) (msg : MessageNode)
    (uid : String) (now : Int) (g0 : Graph)
    (h1 : fail DbOp.createMessage = false) (h2 : fail DbOp.linkOwnership = false)
    (h3 : fail DbOp.updateLastActive = false) :
    addMessageAndCreateEdges fail gen msg uid now g0 =
      runTopicsAndEdges fail gen msg uid now (structuralGraph msg uid now g0)
        (structuralTrace msg) := by
  unfold addMessageAndCreateEdges structuralGraph structuralTrace
  rw [if_neg (by simp [h1]), if_neg (by simp [h2])]
  by_cases hs : msg.sender == "human"
  · rw [if_pos hs, if_neg (by simp [h3]), if_pos hs, if_pos hs]
  · rw [if_neg hs, if_neg hs, if_neg hs]

lemma structuralGraph_messages (msg : MessageNode) (uid : String) (now : Int) (g0 : Graph) :
    (structuralGraph msg uid now g0).messages = g0.messages ++ [msg] := by
  unfold structuralGraph setLastActiveOp
  split <;> simp [linkOwnershipOp_messages]

lemma structuralGraph_ctxEdges (msg : MessageNode) (uid : String) (now : Int) (g0 : Graph) :
    (structuralGraph msg uid now g0).ctxEdges = g0.ctxEdges := by
  unfold structuralGraph setLastActiveOp
  split <;> simp [linkOwnershipOp_ctxEdges]

lemma structuralGraph_users (msg : MessageNode) (uid : String) (now : Int) (g0 : Graph) :
    (structuralGraph msg uid now g0).users =
      if msg.sender == "human" then
        g0.users.map (fun u => if u.userId == uid then { u with lastActive := now } else u)
      else g0.users := by
  unfold structuralGraph setLastActiveOp
  split <;> simp [linkOwnershipOp_users]

/-! ## Further lemmas for the pipeline theorems -/

lemma cosineSimilarity_nil (b : List ℚ) : cosineSimilarity [] b = 0 := by
  unfold cosineSimilarity
  simp

lemma upsertTopicOp_topic_present (g : Graph) (tname tid : String) (now : Int) :
    ((upsertTopicOp g tname tid now).topics.any (fun t => t.name == tname)) = true := by
  unfold upsertTopicOp
  split
  · next h => exact h
  · simp

lemma linkMessageTopicOp_adds (g : Graph) (mid tname : String)
    (hm : g.messages.any (fun m => m.messageId == mid) = true)
    (ht : g.topics.any (fun t => t.name == tname) = true) :
    (mid, tname) ∈ (linkMessageTopicOp g mid tname).belongsTo := by
  unfold linkMessageTopicOp
  rw [if_pos (by simp [hm, ht])]
  split
  · next h => exact h
  · simp

lemma linkMessageTopicOp_belongsTo_mono {g : Graph} {mid tname : String} {p : String × String}
    (hp : p ∈ g.belongsTo) : p ∈ (linkMessageTopicOp g mid tname).belongsTo := by
  unfold linkMessageTopicOp
  split
  · split
    · exact hp
    · simp [hp]
  · exact hp

lemma topicStep_belongsTo_mono (fail : DbOp → Bool) (gen : String → String) (mid : String)
    (now : Int) (s : Graph × List DbOp) (tname : String) {p : String × String}
    (hp : p ∈ s.1.belongsTo) : p ∈ (topicStep fail gen mid now s tname).1.belongsTo := by
  unfold topicStep
  split_ifs
  · exact hp
  · simpa [upsertTopicOp_belongsTo] using hp
  · exact linkMessageTopicOp_belongsTo_mono (by simpa [upsertTopicOp_belongsTo] using hp)

lemma topicFold_belongsTo_mono (fail : DbOp → Bool) (gen : String → String) (mid : String)
    (now : Int) (names : List String) :
    ∀ (s : Graph × List DbOp) (p : String × String), p ∈ s.1.belongsTo →
      p ∈ ((names.foldl (topicStep fail gen mid now) s).1).belongsTo := by
  induction names with
  | nil => intro s p hp; exact hp
  | cons n ns ih =>
      intro s p hp
      simp only [List.foldl_cons]
      exact ih _ p (topicStep_belongsTo_mono fail gen mid now s n hp)

/-- With no injected failures, the topic loop links the message to every
topic of the list (provided the message node is present, which the
transaction guarantees). -/
lemma topicFold_covers (gen : String → String) (mid : String) (now : Int)
    (names : List String) :
    ∀ s : Graph × List DbOp, s.1.messages.any (fun m => m.messageId == mid) = true →
      ∀ t ∈ names,
        (mid, t) ∈ ((names.foldl (topicStep (fun _ => false) gen mid now) s).1).belongsTo := by
  induction names with
  | nil => intro s _ t ht; exact absurd ht (List.not_mem_nil t)
  | cons n ns ih =>
      intro s hm t ht
      simp only [List.foldl_cons]
      rcases List.mem_cons.mp ht with rfl | ht
      · have hstep : (mid, t) ∈ (topicStep (fun _ => false) gen mid now s t).1.belongsTo := by
          unfold topicStep
          rw [if_neg (by simp), if_neg (by simp)]
          refine linkMessageTopicOp_adds _ _ _ ?_ (upsertTopicOp_topic_present _ _ _ _)
          rw [upsertTopicOp_messages]
          exact hm
        exact topicFold_belongsTo_mono _ gen mid now ns _ _ hstep
      · refine ih _ ?_ t ht
        rw [(topicStep_fst_fields _ gen mid now s n).2.1]
        exact hm

/-- With an empty new-message embedding no candidate passes the threshold,
so the candidate loop leaves the graph untouched. -/
lemma edgeFold_nil_embedding (fail : DbOp → Bool) (mid : String) (now : Int)
    (cands : List MessageNode) :
    ∀ s : Graph × List DbOp, (cands.foldl (edgeStep fail [] mid now) s).1 = s.1 := by
  induction cands with
  | nil => intro s; rfl
  | cons c cs ih =>
      intro s
      simp only [List.foldl_cons]
      rw [ih]
      unfold edgeStep
      rw [if_neg (by simp [decideGtHalf_nil])]

/-! ## Auxiliary lemmas for the topic-normalizer theorems -/

lemma beginsWith_refl (l : List Char) : beginsWith l l = true := by
  induction l with
  | nil => rfl
  | cons c cs ih => simp [beginsWith, ih]

lemma containsSub_self (l : List Char) : containsSub l l = true := by
  cases l with
  | nil => rfl
  | cons c cs => simp [containsSub, beginsWith_refl]

lemma cleanTopics_of_sentinelOrEmpty {s : List Char}
    (h : sentinelOrEmpty (trimQuotes (trimSpace s)) = true) : cleanTopics s = [] := by
  unfold cleanTopics
  rw [if_pos h]

lemma cleanTopics_foldl_filterMap (l : List (List Char)) (acc : List (List Char)) :
    l.foldl (fun acc t =>
        match matchCandidate t with
        | some v => acc ++ [v]
        | none => acc) acc
      = acc ++ l.filterMap matchCandidate := by
  induction l generalizing acc with
  | nil => simp
  | cons t ts ih =>
      simp only [List.foldl_cons, List.filterMap_cons]
      cases h : matchCandidate t with
      | none => simpa using ih acc
      | some v => simpa [List.append_assoc] using ih (acc ++ [v])

/-! ## Claim theorems: similarity engine -/

/-- **C3.** `cosineSimilarity` returns `0.0` when the lengths of the two
vectors differ, when either vector is empty, or when either vector's
(squared) norm is zero; otherwise it returns the cosine similarity
`dot(a,b) / (‖a‖·‖b‖)` (where `‖a‖ = √(dotProduct a a)`, and a squared
norm is zero exactly when the norm is zero). -/
theorem cosineSimilarity_contract (a b : List ℚ) :
    ((a.length ≠ b.length ∨ a = [] ∨ b = []) → cosineSimilarity a b = 0) ∧
    ((dotProduct a a = 0 ∨ dotProduct b b = 0) → cosineSimilarity a b = 0) ∧
    (a.length = b.length → a ≠ [] → dotProduct a a ≠ 0 → dotProduct b b ≠ 0 →
      cosineSimilarity a b =
        (dotProduct a b : ℝ) /
          (Real.sqrt (dotProduct a a) * Real.sqrt (dotProduct b b))) := by
  refine ⟨?_, ?_, ?_⟩
  · intro h
    unfold cosineSimilarity
    rcases h with h | h | h
    · rw [if_pos (Or.inl h)]
    · rw [if_pos (Or.inr (by simp [h]))]
    · by_cases ha : a = []
      · rw [if_pos (Or.inr (by simp [ha]))]
      · refine if_pos (Or.inl ?_)
        rw [h]
        simpa [List.length_eq_zero] using ha
  · intro h
    unfold cosineSimilarity
    by_cases hlen : a.length ≠ b.length ∨ a.length = 0
    · rw [if_pos hlen]
    · rw [if_neg hlen]
      simp only []
      rw [if_pos h]
  · intro h1 h2 h3 h4
    unfold cosineSimilarity
    rw [if_neg (by
      push_neg
      exact ⟨h1, by simpa [List.length_eq_zero] using h2⟩)]
    simp only []
    rw [if_neg (by rintro (hc | hc); exacts [h3 hc, h4 hc])]

theorem cosineSimilarity_contract_witness :
    cosineSimilarity [(1 : ℚ), 2] [1] = 0 ∧
    cosineSimilarity [(0 : ℚ), 0] [1, 1] = 0 ∧
    cosineSimilarity [(1 : ℚ)] [2] =
      (dotProduct [(1 : ℚ)] [2] : ℝ) /
        (Real.sqrt (dotProduct [(1 : ℚ)] [(1 : ℚ)]) * Real.sqrt (dotProduct [(2 : ℚ)] [(2 : ℚ)])) :=
  ⟨(cosineSimilarity_contract [1, 2] [1]).1 (Or.inl (by decide)),
   (cosineSimilarity_contract [0, 0] [1, 1]).2.1 (Or.inl (by norm_num [dotProduct])),
   (cosineSimilarity_contract [1] [2]).2.2 rfl (by simp) (by norm_num [dotProduct])
     (by norm_num [dotProduct])⟩

/-- **C8 counterexample.** The all-zero vector `[0]` is non-empty, yet
`cosineSimilarity [0] [0]` is `0`, not `1`: the zero-norm guard fires
before the division, so the claim "for every non-empty vector a,
similarity(a, a) equals exactly 1.0" fails at `a = [0]`. -/
theorem cosineSimilarity_self_zero_vector :
    ([(0 : ℚ)] ≠ ([] : List ℚ)) ∧
    cosineSimilarity [(0 : ℚ)] [(0 : ℚ)] = 0 ∧
    cosineSimilarity [(0 : ℚ)] [(0 : ℚ)] ≠ 1 := by
  refine ⟨by simp, ?_, ?_⟩ <;>
    · unfold cosineSimilarity
      norm_num [dotProduct]

/-- **C8 amended.** For every vector `a` with nonzero norm (equivalently,
nonzero squared norm; such a vector is in particular non-empty), the
self-similarity `cosineSimilarity a a` is exactly `1` in exact
arithmetic. -/
theorem cosineSimilarity_self (a : List ℚ) (h : dotProduct a a ≠ 0) :
    cosineSimilarity a a = 1 := by
  have hpos : 0 < dotProduct a a := dotProduct_self_pos h
  have hne : a ≠ [] := by
    rintro rfl
    exact h (by simp [dotProduct])
  unfold cosineSimilarity
  rw [if_neg (by
    push_neg
    exact ⟨rfl, by simpa [List.length_eq_zero] using hne⟩)]
  simp only []
  rw [if_neg (by rintro (hc | hc) <;> exact h hc)]
  have hr : (0 : ℝ) ≤ ((dotProduct a a : ℚ) : ℝ) := by
    exact_mod_cast le_of_lt hpos
  rw [Real.mul_self_sqrt hr]
  exact div_self (by exact_mod_cast h)

theorem cosineSimilarity_self_witness :
    dotProduct [(3 : ℚ), 4] [(3 : ℚ), 4] ≠ 0 ∧
    cosineSimilarity [(3 : ℚ), 4] [(3 : ℚ), 4] = 1 :=
  ⟨by norm_num [dotProduct],
   cosineSimilarity_self [3, 4] (by norm_num [dotProduct])⟩

/-! ## Claim theorems: topic normalization -/

/-- **C5 counterexample.** The normalizer does not deduplicate: the raw
text `"áo, Áo"` lists the same vocabulary tag twice (in two spellings)
and the result is `["Áo", "Áo"]`, which contains a duplicate — not the
deduplicated `{"Áo"}` the claim requires. -/
theorem extractTopics_no_dedup :
    extractTopicsClean "áo, Áo" = ["Áo", "Áo"] ∧
    ¬ (extractTopicsClean "áo, Áo").Nodup := by
  constructor <;> decide

/-- **C5 amended.** For every raw topic text that passes the sentinel and
emptiness check, the result is exactly: split on commas, trim each
candidate, guard it against emptiness and the literal sentinel, and keep
the canonical vocabulary spelling of each case-insensitive match,
dropping candidates that match nothing — **without** deduplication (a tag
listed twice appears twice).  Every returned tag is a canonical
vocabulary entry, and `"áo, Giày, zzz"` yields exactly `["Áo", "Giày"]`. -/
theorem extractTopics_normalization (s : String)
    (h : sentinelOrEmpty (trimQuotes (trimSpace s.data)) = false) :
    cleanTopics s.data =
      (splitComma (trimQuotes (trimSpace s.data))).filterMap matchCandidate ∧
    (∀ t ∈ cleanTopics s.data, t ∈ validTags) ∧
    extractTopicsClean "áo, Giày, zzz" = ["Áo", "Giày"] := by
  have hmain : cleanTopics s.data =
      (splitComma (trimQuotes (trimSpace s.data))).filterMap matchCandidate := by
    unfold cleanTopics
    rw [if_neg (by simp [h])]
    simpa using cleanTopics_foldl_filterMap (splitComma (trimQuotes (trimSpace s.data))) []
  refine ⟨hmain, ?_, by decide⟩
  intro t ht
  rw [hmain] at ht
  obtain ⟨c, -, hc⟩ := List.mem_filterMap.mp ht
  unfold matchCandidate at hc
  split at hc
  · exact List.mem_of_find?_eq_some hc
  · simp at hc

theorem extractTopics_normalization_witness :
    cleanTopics ("áo, Giày, zzz").data =
      (splitComma (trimQuotes (trimSpace ("áo, Giày, zzz").data))).filterMap matchCandidate ∧
    (∀ t ∈ cleanTopics ("áo, Giày, zzz").data, t ∈ validTags) ∧
    extractTopicsClean "áo, Giày, zzz" = ["Áo", "Giày"] :=
  extractTopics_normalization "áo, Giày, zzz" (by decide)

/-- **C6.** Topic normalization returns the empty set whenever the
trimmed raw text is empty or case-insensitively equals one of the "no
tags" sentinels (`"không có tag"`, `"no tag"`). -/
theorem extractTopics_sentinel_cases (s : String)
    (h : trimSpace (trimQuotes (trimSpace s.data)) = [] ∨
         equalFold (trimQuotes (trimSpace s.data)) noTagVN = true ∨
         equalFold (trimQuotes (trimSpace s.data)) noTagEN = true) :
    extractTopicsClean s = [] := by
  have hs : sentinelOrEmpty (trimQuotes (trimSpace s.data)) = true := by
    unfold sentinelOrEmpty
    rcases h with h | h | h
    · simp [h]
    · have hmap : toLowerStr (trimQuotes (trimSpace s.data)) = noTagVN := by
        have h1 : (trimQuotes (trimSpace s.data)).map vietLower = noTagVN.map vietLower :=
          by simpa [equalFold] using h
        have h2 : noTagVN.map vietLower = noTagVN := by decide
        simpa [toLowerStr, h2] using h1
      simp [hmap, containsSub_self]
    · have hmap : toLowerStr (trimQuotes (trimSpace s.data)) = noTagEN := by
        have h1 : (trimQuotes (trimSpace s.data)).map vietLower = noTagEN.map vietLower :=
          by simpa [equalFold] using h
        have h2 : noTagEN.map vietLower = noTagEN := by decide
        simpa [toLowerStr, h2] using h1
      simp [hmap, containsSub_self]
  unfold extractTopicsClean
  rw [cleanTopics_of_sentinelOrEmpty hs]
  rfl

theorem extractTopics_sentinel_cases_witness :
    extractTopicsClean "" = [] ∧
    extractTopicsClean "không có tag" = [] ∧
    extractTopicsClean "no tag" = [] :=
  ⟨extractTopics_sentinel_cases "" (Or.inl (by decide)),
   extractTopics_sentinel_cases "không có tag" (Or.inr (Or.inl (by decide))),
   extractTopics_sentinel_cases "no tag" (Or.inr (Or.inr (by decide)))⟩

/-- **C10.** The sentinel is detected by substring containment on the
lowercased text, not by whole-string comparison: whenever the lowercased
trimmed text contains `"không có tag"` or `"no tag"` anywhere, the
normalizer returns the empty set — even when the text also lists valid
vocabulary tags (e.g. `"Áo, no tag"`). -/
theorem extractTopics_sentinel_by_containment (s : String)
    (h : containsSub (toLowerStr (trimQuotes (trimSpace s.data))) noTagVN = true ∨
         containsSub (toLowerStr (trimQuotes (trimSpace s.data))) noTagEN = true) :
    extractTopicsClean s = [] := by
  have hs : sentinelOrEmpty (trimQuotes (trimSpace s.data)) = true := by
    unfold sentinelOrEmpty
    rcases h with h | h <;> simp [h]
  unfold extractTopicsClean
  rw [cleanTopics_of_sentinelOrEmpty hs]
  rfl

theorem extractTopics_sentinel_by_containment_witness :
    extractTopicsClean "Áo, no tag" = [] :=
  extractTopics_sentinel_by_containment "Áo, no tag" (Or.inr (by decide))

/-! ## Claim theorem: non-idempotent edge merge (C9) -/

/-- **C9.** The `CONTEXTUAL_LINK` merge pattern keys on the edge type
together with the per-call `similarity` and `timestamp` properties, so
re-running the ingestion over the same unordered message pair with a
different per-call timestamp creates an additional edge for that pair
(two edges between the same unordered pair) instead of recognizing and
updating the existing one; only a literally identical call (same
similarity and same timestamp) is recognized. -/
theorem contextualLink_merge_not_idempotent (id1 id2 : String) (sim : ℚ) (t1 t2 : Int)
    (h : t1 ≠ t2) :
    (mergeContextualLink (mergeContextualLink [] id1 id2 sim t1) id1 id2 sim t2).length = 2 ∧
    (edgesBetween (mergeContextualLink (mergeContextualLink [] id1 id2 sim t1) id1 id2 sim t2)
        id1 id2).length = 2 ∧
    (mergeContextualLink (mergeContextualLink [] id1 id2 sim t1) id1 id2 sim t1).length = 1 := by
  have h1 : mergeContextualLink [] id1 id2 sim t1 = [⟨id1, id2, sim, t1⟩] := by
    unfold mergeContextualLink
    simp
  have hnomatch : ctxPatternMatches ⟨id1, id2, sim, t1⟩ id1 id2 sim t2 = false := by
    simp [ctxPatternMatches, h]
  have h2 : mergeContextualLink (mergeContextualLink [] id1 id2 sim t1) id1 id2 sim t2 =
      [⟨id1, id2, sim, t1⟩, ⟨id1, id2, sim, t2⟩] := by
    rw [h1]
    unfold mergeContextualLink
    simp [hnomatch]
  refine ⟨by rw [h2]; rfl, ?_, ?_⟩
  · rw [h2]
    simp [edgesBetween]
  · rw [h1]
    unfold mergeContextualLink
    simp [ctxPatternMatches]

theorem contextualLink_merge_not_idempotent_witness :
    (mergeContextualLink (mergeContextualLink [] "m1" "m2" (9/10) 100) "m1" "m2" (9/10) 200).length
        = 2 ∧
    (edgesBetween (mergeContextualLink (mergeContextualLink [] "m1" "m2" (9/10) 100)
        "m1" "m2" (9/10) 200) "m1" "m2").length = 2 ∧
    (mergeContextualLink (mergeContextualLink [] "m1" "m2" (9/10) 100) "m1" "m2" (9/10) 100).length
        = 1 :=
  contextualLink_merge_not_idempotent "m1" "m2" (9/10) 100 200 (by decide)

/-! ## Claim theorems: the transactional pipeline -/

/-- **C1.** Within one unit of work, a failure of any structural write
(message-node creation, ownership link, last-active update) aborts the
whole unit of work — the result is an error and, by the rollback
semantics of `commitState`, nothing is persisted for the message — while
failures of the auxiliary writes (topic upserts, message-topic links,
single edge creations) never abort it: with the structural writes and the
candidate query succeeding, the unit of work commits whatever auxiliary
writes fail, and the message node itself is persisted. -/
theorem structural_aborts_auxiliary_skips (fail : DbOp → Bool) (gen : String → String)
    (msg : MessageNode) (uid : String) (now : Int) (g0 : Graph) :
    ((fail DbOp.createMessage = true ∨ fail DbOp.linkOwnership = true ∨
        (msg.sender = "human" ∧ fail DbOp.updateLastActive = true)) →
      (∃ e, addMessageAndCreateEdges fail gen msg uid now g0 = Except.error e) ∧
      commitState g0 (addMessageAndCreateEdges fail gen msg uid now g0) = g0) ∧
    (fail DbOp.createMessage = false → fail DbOp.linkOwnership = false →
     fail DbOp.updateLastActive = false → fail DbOp.fetchCandidates = false →
      (∃ r, addMessageAndCreateEdges fail gen msg uid now g0 = Except.ok r) ∧
      msg ∈ (commitState g0 (addMessageAndCreateEdges fail gen msg uid now g0)).messages) := by
  constructor
  · intro h
    have herr : ∃ e, addMessageAndCreateEdges fail gen msg uid now g0 = Except.error e := by
      unfold addMessageAndCreateEdges
      by_cases hc : fail DbOp.createMessage
      · rw [if_pos hc]
        exact ⟨_, rfl⟩
      · rw [if_neg hc]
        by_cases hl : fail DbOp.linkOwnership
        · rw [if_pos hl]
          exact ⟨_, rfl⟩
        · rw [if_neg hl]
          rcases h with h | h | ⟨hs, hu⟩
          · exact absurd h hc
          · exact absurd h hl
          · rw [if_pos (by simp [hs]), if_pos hu]
            exact ⟨_, rfl⟩
    obtain ⟨e, he⟩ := herr
    refine ⟨⟨e, he⟩, ?_⟩
    rw [he]
    rfl
  · intro h1 h2 h3 h4
    rw [addMessage_ok_eq fail gen msg uid now g0 h1 h2 h3]
    unfold runTopicsAndEdges
    rw [if_neg (by simp [h4])]
    refine ⟨⟨_, rfl⟩, ?_⟩
    simp only [commitState]
    rw [(edgeFold_fst_fields _ _ _ _ _ _).2.1, (topicFold_fst_fields _ _ _ _ _ _).2.1,
      structuralGraph_messages]
    simp

/-- The failure oracle of the aborting half of the C1 witness: only the
message-node creation fails. -/
def failStructuralEx : DbOp → Bool := fun op => op == DbOp.createMessage

/-- The failure oracle of the committing half of the C1 witness: every
auxiliary write fails, no structural write or query does. -/
def failAuxiliaryEx : DbOp → Bool := fun op =>
  match op with
  | DbOp.upsertTopic _ => true
  | DbOp.linkTopic _ => true
  | DbOp.createEdge _ => true
  | _ => false

/-- Example pre-state: one user and two prior owned messages. -/
def exG0 : Graph :=
  ⟨[⟨"u1", "User One", 0, 0⟩],
   [⟨"mA", "u1", 1, "ai", "reply", [1, 0, 0, 0], []⟩,
    ⟨"mB", "u1", 2, "human", "ask", [1, 1, 0, 0], []⟩],
   [("u1", "mA"), ("u1", "mB")], [], [], []⟩

/-- Example new human message with one topic. -/
def exMsg : MessageNode :=
  ⟨"m-new", "u1", 10, "human", "Tôi muốn mua áo", [1, 1, 1, 1], ["Áo"]⟩

theorem structural_aborts_auxiliary_skips_witness :
    ((∃ e, addMessageAndCreateEdges failStructuralEx (fun _ => "tid") exMsg "u1" 11 exG0 =
        Except.error e) ∧
      commitState exG0 (addMessageAndCreateEdges failStructuralEx (fun _ => "tid") exMsg "u1" 11
        exG0) = exG0) ∧
    ((∃ r, addMessageAndCreateEdges failAuxiliaryEx (fun _ => "tid") exMsg "u1" 11 exG0 =
        Except.ok r) ∧
      exMsg ∈ (commitState exG0 (addMessageAndCreateEdges failAuxiliaryEx (fun _ => "tid") exMsg
        "u1" 11 exG0)).messages) :=
  ⟨(structural_aborts_auxiliary_skips failStructuralEx (fun _ => "tid") exMsg "u1" 11 exG0).1
      (Or.inl (by decide)),
   (structural_aborts_auxiliary_skips failAuxiliaryEx (fun _ => "tid") exMsg "u1" 11 exG0).2
      rfl rfl rfl rfl⟩

/-- **C2.** In a unit of work whose structural writes and candidate query
succeed, a `CONTEXTUAL_LINK` edge creation is attempted for candidate id
`cid` if and only if some scanned candidate (a same-owner message other
than the new one) carries that id and its computed similarity against the
new message is strictly greater than the threshold `0.5`; similarity
exactly equal to the threshold attempts no edge. -/
theorem edge_attempt_iff_over_threshold (fail : DbOp → Bool) (gen : String → String)
    (msg : MessageNode) (uid : String) (now : Int) (g0 : Graph) (cid : String)
    (h1 : fail DbOp.createMessage = false) (h2 : fail DbOp.linkOwnership = false)
    (h3 : fail DbOp.updateLastActive = false) (h4 : fail DbOp.fetchCandidates = false) :
    DbOp.createEdge cid ∈ txTrace (addMessageAndCreateEdges fail gen msg uid now g0) ↔
      ∃ cand ∈ similarityCandidates (g0.messages ++ [msg]) uid msg.messageId,
        cand.messageId = cid ∧
        (1 / 2 : ℝ) < cosineSimilarity msg.embedding cand.embedding := by
  rw [addMessage_ok_eq fail gen msg uid now g0 h1 h2 h3]
  unfold runTopicsAndEdges
  rw [if_neg (by simp [h4])]
  simp only [txTrace]
  rw [edgeFold_snd, topicFold_snd]
  have hc : similarityCandidates
      ((msg.topics.foldl (topicStep fail gen msg.messageId now)
        (structuralGraph msg uid now g0, structuralTrace msg)).1).messages uid msg.messageId =
      similarityCandidates (g0.messages ++ [msg]) uid msg.messageId := by
    rw [(topicFold_fst_fields _ _ _ _ _ _).2.1, structuralGraph_messages]
  rw [hc]
  constructor
  · intro hmem
    rcases List.mem_append.mp hmem with hmem | hmem
    · exfalso
      rcases List.mem_append.mp hmem with hmem | hmem
      · rcases List.mem_append.mp hmem with hmem | hmem
        · unfold structuralTrace at hmem
          split at hmem <;> simp at hmem
        · rcases mem_topicOps_shape hmem with ⟨n, hn⟩ | ⟨n, hn⟩ <;> simp at hn
      · simp at hmem
    · obtain ⟨c, hcm, hcid, hd⟩ := (mem_edgeOps_iff _ _ _).mp hmem
      exact ⟨c, hcm, hcid, (decideGtHalf_iff_gt _ _).mp hd⟩
  · rintro ⟨c, hcm, hcid, hgt⟩
    refine List.mem_append.mpr (Or.inr ?_)
    exact (mem_edgeOps_iff _ _ _).mpr ⟨c, hcm, hcid, (decideGtHalf_iff_gt _ _).mpr hgt⟩

lemma exGtHalf_mA : decideGtHalf [(1 : ℚ), 1, 1, 1] [1, 0, 0, 0] = false := by
  unfold decideGtHalf
  norm_num [dotProduct]

lemma exGtHalf_mB : decideGtHalf [(1 : ℚ), 1, 1, 1] [1, 1, 0, 0] = true := by
  unfold decideGtHalf
  norm_num [dotProduct]

/-- The committed operation trace on the example run: the candidate `mA`
has similarity exactly `0.5` (no attempt), `mB` has similarity `1/√2`
(attempted). -/
lemma exTrace_eq :
    txTrace (addMessageAndCreateEdges (fun _ => false) (fun _ => "tid") exMsg "u1" 11 exG0) =
      [DbOp.createMessage, DbOp.linkOwnership, DbOp.updateLastActive, DbOp.upsertTopic "Áo",
       DbOp.linkTopic "Áo", DbOp.fetchCandidates, DbOp.createEdge "mB"] := by
  simp [addMessageAndCreateEdges, runTopicsAndEdges, exMsg, exG0, topicStep, edgeStep,
    similarityCandidates, txTrace, exGtHalf_mA, exGtHalf_mB, linkOwnershipOp, setLastActiveOp,
    upsertTopicOp, linkMessageTopicOp, mergeCtxEdgeOp]

theorem edge_attempt_iff_over_threshold_witness :
    (∃ cand ∈ similarityCandidates (exG0.messages ++ [exMsg]) "u1" exMsg.messageId,
        cand.messageId = "mB" ∧
        (1 / 2 : ℝ) < cosineSimilarity exMsg.embedding cand.embedding) ∧
    ¬ (∃ cand ∈ similarityCandidates (exG0.messages ++ [exMsg]) "u1" exMsg.messageId,
        cand.messageId = "mA" ∧
        (1 / 2 : ℝ) < cosineSimilarity exMsg.embedding cand.embedding) :=
  ⟨(edge_attempt_iff_over_threshold (fun _ => false) (fun _ => "tid") exMsg "u1" 11 exG0 "mB"
      rfl rfl rfl rfl).mp (by rw [exTrace_eq]; simp),
   fun hr => absurd
      ((edge_attempt_iff_over_threshold (fun _ => false) (fun _ => "tid") exMsg "u1" 11 exG0 "mA"
        rfl rfl rfl rfl).mpr hr) (by rw [exTrace_eq]; simp)⟩

/-- **C4.** Ingesting a message whose embedding is the degraded empty
sequence still commits: the message node is persisted, every normalized
topic is linked to it, and no `CONTEXTUAL_LINK` edge is created, because
every candidate similarity against the empty embedding is `0`. -/
theorem empty_embedding_degradation (gen : String → String) (msg : MessageNode)
    (uid : String) (now : Int) (g0 : Graph) (hemb : msg.embedding = []) :
    (∃ r, addMessageAndCreateEdges (fun _ => false) gen msg uid now g0 = Except.ok r) ∧
    msg ∈ (commitState g0
      (addMessageAndCreateEdges (fun _ => false) gen msg uid now g0)).messages ∧
    (∀ tname ∈ msg.topics,
      (msg.messageId, tname) ∈ (commitState g0
        (addMessageAndCreateEdges (fun _ => false) gen msg uid now g0)).belongsTo) ∧
    (commitState g0
      (addMessageAndCreateEdges (fun _ => false) gen msg uid now g0)).ctxEdges = g0.ctxEdges ∧
    (∀ b : List ℚ, cosineSimilarity msg.embedding b = 0) := by
  rw [addMessage_ok_eq (fun _ => false) gen msg uid now g0 rfl rfl rfl]
  unfold runTopicsAndEdges
  rw [if_neg (by simp)]
  refine ⟨⟨_, rfl⟩, ?_, ?_, ?_, ?_⟩
  · simp only [commitState]
    rw [(edgeFold_fst_fields _ _ _ _ _ _).2.1, (topicFold_fst_fields _ _ _ _ _ _).2.1,
      structuralGraph_messages]
    simp
  · intro tname htn
    simp only [commitState]
    rw [(edgeFold_fst_fields _ _ _ _ _ _).2.2]
    refine topicFold_covers gen msg.messageId now msg.topics _ ?_ tname htn
    rw [structuralGraph_messages]
    simp
  · simp only [commitState]
    rw [hemb, edgeFold_nil_embedding, (topicFold_fst_fields _ _ _ _ _ _).2.2,
      structuralGraph_ctxEdges]
  · intro b
    rw [hemb, cosineSimilarity_nil]

/-- Example degraded message: empty embedding, one topic. -/
def exMsgEmpty : MessageNode := ⟨"m-deg", "u1", 12, "human", "mua áo", [], ["Áo"]⟩

theorem empty_embedding_degradation_witness :
    (∃ r, addMessageAndCreateEdges (fun _ => false) (fun _ => "tid") exMsgEmpty "u1" 13 exG0 =
        Except.ok r) ∧
    exMsgEmpty ∈ (commitState exG0
      (addMessageAndCreateEdges (fun _ => false) (fun _ => "tid") exMsgEmpty "u1" 13
        exG0)).messages ∧
    ("m-deg", "Áo") ∈ (commitState exG0
      (addMessageAndCreateEdges (fun _ => false) (fun _ => "tid") exMsgEmpty "u1" 13
        exG0)).belongsTo ∧
    (commitState exG0
      (addMessageAndCreateEdges (fun _ => false) (fun _ => "tid") exMsgEmpty "u1" 13
        exG0)).ctxEdges = exG0.ctxEdges ∧
    cosineSimilarity exMsgEmpty.embedding [1, 0, 0, 0] = 0 :=
  have h := empty_embedding_degradation (fun _ => "tid") exMsgEmpty "u1" 13 exG0 rfl
  ⟨h.1, h.2.1, h.2.2.1 "Áo" (by decide), h.2.2.2.1, h.2.2.2.2 [1, 0, 0, 0]⟩

/-- **C7.** In a committing unit of work, the `lastActive` update is
attempted if and only if the message's sender is `"human"`, and the
committed user set is: the owner's `lastActive` set to the transaction
time for a human message, and entirely unchanged for any other sender. -/
theorem lastActive_updated_iff_human (fail : DbOp → Bool) (gen : String → String)
    (msg : MessageNode) (uid : String) (now : Int) (g0 : Graph)
    (h1 : fail DbOp.createMessage = false) (h2 : fail DbOp.linkOwnership = false)
    (h3 : fail DbOp.updateLastActive = false) (h4 : fail DbOp.fetchCandidates = false) :
    (DbOp.updateLastActive ∈ txTrace (addMessageAndCreateEdges fail gen msg uid now g0) ↔
      msg.sender = "human") ∧
    (commitState g0 (addMessageAndCreateEdges fail gen msg uid now g0)).users =
      (if msg.sender = "human" then
        g0.users.map (fun u => if u.userId == uid then { u with lastActive := now } else u)
      else g0.users) := by
  rw [addMessage_ok_eq fail gen msg uid now g0 h1 h2 h3]
  unfold runTopicsAndEdges
  rw [if_neg (by simp [h4])]
  constructor
  · simp only [txTrace]
    rw [edgeFold_snd, topicFold_snd]
    constructor
    · intro hmem
      rcases List.mem_append.mp hmem with hmem | hmem
      · rcases List.mem_append.mp hmem with hmem | hmem
        · rcases List.mem_append.mp hmem with hmem | hmem
          · unfold structuralTrace at hmem
            split at hmem
            · next hs => simpa using hs
            · simp at hmem
          · exfalso
            rcases mem_topicOps_shape hmem with ⟨n, hn⟩ | ⟨n, hn⟩ <;> simp at hn
        · exact absurd hmem (by simp)
      · exfalso
        obtain ⟨c, hn⟩ := mem_edgeOps_shape hmem
        simp at hn
    · intro hs
      refine List.mem_append.mpr (Or.inl (List.mem_append.mpr (Or.inl
        (List.mem_append.mpr (Or.inl ?_)))))
      unfold structuralTrace
      rw [if_pos (by simp [hs])]
      simp
  · simp only [commitState]
    rw [(edgeFold_fst_fields _ _ _ _ _ _).1, (topicFold_fst_fields _ _ _ _ _ _).1,
      structuralGraph_users]
    by_cases hs : msg.sender = "human"
    · rw [if_pos (by simp [hs]), if_pos hs]
    · rw [if_neg (by simp [hs]), if_neg hs]

/-- Example assistant message (sender `"ai"`). -/
def exMsgAI : MessageNode := ⟨"m-ai", "u1", 14, "ai", "assistant reply", [1, 1, 0, 0], []⟩

theorem lastActive_updated_iff_human_witness :
    ((DbOp.updateLastActive ∈ txTrace
        (addMessageAndCreateEdges (fun _ => false) (fun _ => "tid") exMsg "u1" 15 exG0) ↔
      exMsg.sender = "human") ∧
     (commitState exG0
        (addMessageAndCreateEdges (fun _ => false) (fun _ => "tid") exMsg "u1" 15 exG0)).users =
      (if exMsg.sender = "human" then
        exG0.users.map (fun u => if u.userId == "u1" then { u with lastActive := 15 } else u)
      else exG0.users)) ∧
    ((DbOp.updateLastActive ∈ txTrace
        (addMessageAndCreateEdges (fun _ => false) (fun _ => "tid") exMsgAI "u1" 16 exG0) ↔
      exMsgAI.sender = "human") ∧
     (commitState exG0
        (addMessageAndCreateEdges (fun _ => false) (fun _ => "tid") exMsgAI "u1" 16 exG0)).users =
      (if exMsgAI.sender = "human" then
        exG0.users.map (fun u => if u.userId == "u1" then { u with lastActive := 16 } else u)
      else exG0.users)) :=
  ⟨lastActive_updated_iff_human (fun _ => false) (fun _ => "tid") exMsg "u1" 15 exG0
      rfl rfl rfl rfl,
   lastActive_updated_iff_human (fun _ => false) (fun _ => "tid") exMsgAI "u1" 16 exG0
      rfl rfl rfl rfl⟩

end ScrimNeo4j
